import Mathlib

/-!
Verification of the request-encoding and entity-resolution core of the
`phable` CLI (a Phabricator task client, repository `brouberol/phable`).

The repository ships two generations of the tool:
* `src/phable/…` — the current generation (`phable/cli.py`, `phable/cli/move.py`,
  `phable/cli/tag.py`, …);
* `src/phable_cli/…` — the legacy generation (`phable_cli/cli.py`,
  `phable_cli/config.py`).

The definitions below are shallow embeddings of those Python sources.  Remote
calls are modelled through explicit client records of pure functions, and every
command returns the ordered trace of transactions it submitted together with an
optional fatal error (modelling `ctx.fail` / an uncaught exception).  The
functions of `phabricator.py` (which is not under `src/`) are modelled from the
spec where needed; each such definition says so in its doc comment.
-/

namespace Phable

/-- Python `str.lower()` (over the ASCII range relevant here): lower-case
every character.  Defined over the character list so that it evaluates by
plain reduction. -/
def pyLower (s : String) : String :=
  ⟨s.data.map Char.toLower⟩

/-- Python `str.strip()`: remove leading and trailing whitespace. -/
def pyStrip (s : String) : String :=
  ⟨((s.data.dropWhile Char.isWhitespace).reverse.dropWhile Char.isWhitespace).reverse⟩

/-- A transaction submitted to the remote service by the `move` command:
either the per-board column move, or one of the two follow-up status
transitions (`mark_task_as_in_progress`, `mark_task_as_resolved`). -/
inductive MoveEvent where
  | moveToColumn (taskId : Nat) (columnPhid : String)
  | markInProgress (taskId : Nat)
  | markResolved (taskId : Nat)
deriving DecidableEq, Repr

/-- Is this event one of the two follow-up status transactions? -/
def MoveEvent.isStatusTx : MoveEvent → Bool
  | .moveToColumn _ _ => false
  | .markInProgress _ => true
  | .markResolved _ => true

/-- A board column as returned by the remote API: display name, stable
identifier, optional proxy identifier (non-null only for milestone columns)
and hidden flag (spec §3, "Column"). -/
structure Column where
  name : String
  phid : String
  proxyPhid : Option String
  hidden : Bool
deriving DecidableEq, Repr

/-- Modelled from the spec: `find_column_in_project` lives in `phabricator.py`,
which is not under `src/`.  Spec §4.2 `resolve_column`: case-insensitive exact
match of the requested column name against the board's column names; no match
is a resolution failure (never defaulted). -/
def find_column_in_project (columns : List Column) (columnName : String) : Option Column :=
  columns.find? (fun col => pyLower col.name == pyLower columnName)

/-- Modelled from the spec: `get_main_project_or_milestone` lives in
`phabricator.py`, which is not under `src/`.  Spec §4.2
`resolve_board_or_milestone`: if `milestone` is false, return the base
project's identifier directly; if true, return the proxy identifier of the
first column of the base project that is both non-hidden and has a non-null
proxy, failing when none exists. -/
def get_main_project_or_milestone (projectColumns : List Column) (milestone : Bool)
    (projectPhid : String) : Option String :=
  if milestone then
    (projectColumns.find? (fun c => !c.hidden && c.proxyPhid.isSome)).bind (fun c => c.proxyPhid)
  else
    some projectPhid

/-- The transport-facing per-task mutation calls used by the `move` loop.
Each returns `none` on success and `some errorMessage` when the call raises
(transport failure or remote rejection, spec §6/§7). -/
structure MoveClient where
  moveTaskToColumn : Nat → String → Option String
  markTaskAsInProgress : Nat → Option String
  markTaskAsResolved : Nat → Option String

/-- A client whose transport never fails. -/
def okClient : MoveClient :=
  { moveTaskToColumn := fun _ _ => none
    markTaskAsInProgress := fun _ => none
    markTaskAsResolved := fun _ => none }

/-- Sequencing of one remote call after an accumulated (trace, error) state:
if a previous call already raised, the new call is never issued (Python
control flow after an exception); otherwise the call is recorded on the trace
and its own outcome becomes the current error state. -/
def seqCall (acc : List MoveEvent × Option String) (ev : MoveEvent) (res : Option String) :
    List MoveEvent × Option String :=
  match acc.2 with
  | some _ => acc
  | none => (acc.1 ++ [ev], res)

/-- Body of the per-task loop of `move_task` in `src/phable/cli/move.py`
(lines 55-60, identical in `src/phable/cli.py` lines 384-389):
`move_task_to_column`, then `mark_task_as_in_progress` when
`column.lower() in ("in progress", "needs review")`, then
`mark_task_as_resolved` when `column.lower() == "done"`. -/
def movePerTask (client : MoveClient) (column : String) (columnPhid : String) (taskId : Nat) :
    List MoveEvent × Option String :=
  let s0 := seqCall ([], none) (MoveEvent.moveToColumn taskId columnPhid)
      (client.moveTaskToColumn taskId columnPhid)
  let s1 :=
    if pyLower column = "in progress" ∨ pyLower column = "needs review" then
      seqCall s0 (MoveEvent.markInProgress taskId) (client.markTaskAsInProgress taskId)
    else s0
  if pyLower column = "done" then
    seqCall s1 (MoveEvent.markResolved taskId) (client.markTaskAsResolved taskId)
  else s1

/-- Body of the per-task loop of the legacy `move_task` in
`src/phable_cli/cli.py` (lines 316-319): `move_task_to_column`, then
`mark_task_as_resolved` when `column.lower() == "done"`; the legacy
generation has no in-progress follow-up. -/
def movePerTaskLegacy (client : MoveClient) (column : String) (columnPhid : String)
    (taskId : Nat) : List MoveEvent × Option String :=
  let s0 := seqCall ([], none) (MoveEvent.moveToColumn taskId columnPhid)
      (client.moveTaskToColumn taskId columnPhid)
  if pyLower column = "done" then
    seqCall s0 (MoveEvent.markResolved taskId) (client.markTaskAsResolved taskId)
  else s0

/-- The `for task_id in task_ids:` loop: tasks are processed strictly
sequentially in input order; an uncaught error in a per-task body aborts the
remaining iterations (Python exception propagation). -/
def moveLoopWith (perTask : Nat → List MoveEvent × Option String) :
    List Nat → List MoveEvent × Option String
  | [] => ([], none)
  | t :: ts =>
    match perTask t with
    | (evs, some e) => (evs, some e)
    | (evs, none) =>
      let rest := moveLoopWith perTask ts
      (evs ++ rest.1, rest.2)

/-- The board data visible to a `move` run: the columns of the base project
(used for milestone discovery) and the columns of each board. -/
structure MoveEnv where
  projectColumns : List Column
  boardColumns : String → List Column

/-- Fatal-error message used when the board-or-milestone resolution fails
(the underlying `ValueError` raised inside `phabricator.py` reaches
`ctx.fail`; the exact wording lives outside `src/`). -/
def boardResolutionFailedMsg : String := "no current milestone found"

/-- Fatal-error message used when the column resolution fails. -/
def columnResolutionFailedMsg (column : String) : String :=
  "column " ++ column ++ " not found"

/-- Command `move_task` from `src/phable/cli/move.py` (lines 48-62): resolve the
target board (base project or its current milestone), resolve the column on
that board, then run the per-task loop; any `ValueError` is turned into a
single `ctx.fail` (here: the `Option String` fatal-error component). -/
def move_task (env : MoveEnv) (client : MoveClient) (milestone : Bool) (projectPhid : String)
    (column : String) (taskIds : List Nat) : List MoveEvent × Option String :=
  match get_main_project_or_milestone env.projectColumns milestone projectPhid with
  | none => ([], some boardResolutionFailedMsg)
  | some targetProjectPhid =>
    match find_column_in_project (env.boardColumns targetProjectPhid) column with
    | none => ([], some (columnResolutionFailedMsg column))
    | some targetColumn => moveLoopWith (movePerTask client column targetColumn.phid) taskIds

/-- The legacy `move_task` from `src/phable_cli/cli.py` (lines 309-321):
same resolution phase, but the per-task body has no in-progress follow-up. -/
def move_task_legacy (env : MoveEnv) (client : MoveClient) (milestone : Bool)
    (projectPhid : String) (column : String) (taskIds : List Nat) :
    List MoveEvent × Option String :=
  match get_main_project_or_milestone env.projectColumns milestone projectPhid with
  | none => ([], some boardResolutionFailedMsg)
  | some targetProjectPhid =>
    match find_column_in_project (env.boardColumns targetProjectPhid) column with
    | none => ([], some (columnResolutionFailedMsg column))
    | some targetColumn =>
      moveLoopWith (movePerTaskLegacy client column targetColumn.phid) taskIds

/-! ### The tag expression parser of `create_task`

`create_task` (`src/phable/cli.py` lines 258-280, identical in
`src/phable_cli/cli.py` lines 199-221) parses every `--tags` value with
`re.match(r"(?P<parent>[\w\s\.-]+) \((?P<subproject>[\w\s+\.-]+)\)", tag)`.
The character classes are modelled over their ASCII meaning. -/

/-- Class `\w`: a word character. -/
def isWordChar (c : Char) : Bool := c.isAlphanum || c = '_'

/-- The character class `[\w\s\.-]` of the `parent` group. -/
def parentClassChar (c : Char) : Bool :=
  isWordChar c || c.isWhitespace || c = '.' || c = '-'

/-- The character class `[\w\s+\.-]` of the `subproject` group. -/
def subprojectClassChar (c : Char) : Bool :=
  isWordChar c || c.isWhitespace || c = '+' || c = '.' || c = '-'

/-- One backtracking pass of the regex match, trying parent-capture lengths
downward from the maximal run `pMax` of parent-class characters (leftmost
greedy `re.match` semantics).  After the literal `" ("` the subproject
capture needs no backtracking of its own: `)` is not in its class, so the
maximal run of subproject-class characters is the only candidate that can be
followed by the literal `)`. -/
def tagMatchAux (pMax rest : List Char) : Nat → Option (List Char × List Char)
  | 0 => none
  | k + 1 =>
    match pMax.drop (k + 1) ++ rest with
    | ' ' :: '(' :: cs =>
      let q := cs.takeWhile subprojectClassChar
      let rest2 := cs.dropWhile subprojectClassChar
      if q ≠ [] ∧ rest2.head? = some ')' then some (pMax.take (k + 1), q)
      else tagMatchAux pMax rest k
    | _ => tagMatchAux pMax rest k

/-- Python `re.match(r"(?P<parent>[\w\s\.-]+) \((?P<subproject>[\w\s+\.-]+)\)", tag)`:
`some (parent, subproject)` with the two captured groups when the pattern
matches at the start of `tag`, `none` otherwise. -/
def tagMatch (tag : String) : Option (String × String) :=
  let cs := tag.toList
  let pMax := cs.takeWhile parentClassChar
  let rest := cs.dropWhile parentClassChar
  match tagMatchAux pMax rest pMax.length with
  | some (p, q) => some (p.asString, q.asString)
  | none => none

/-! ### The create_task command (`src/phable/cli.py` lines 239-306) -/

/-- A resolution lookup issued against the remote search API by
`create_task`. -/
inductive LookupCall where
  | findProject (title : String) (parentPhid : Option String)
  | findUser (username : String)
deriving DecidableEq, Repr

/-- The resolver-facing client calls used by `create_task`:
`find_project_by_title(title, parent_phid)`, `find_user_by_username`, and
`show_task` for the parent task (modelled, like the source, as always
returning an object with a `phid`). -/
structure CreateClient where
  findProjectByTitle : String → Option String → Option String
  findUserByUsername : String → Option String
  showTaskPhid : Nat → String

/-- How Python renders `None` inside an f-string. -/
def pyNoneStr : String := "None"

/-- How Python renders an `Optional[str]` inside an f-string. -/
def pyOptStr : Option String → String
  | none => pyNoneStr
  | some s => s

/-- A scalar or list value of the field map handed to
`create_or_edit_task` (spec §4.3). -/
inductive FieldValue where
  | str (s : String)
  | list (l : List String)
deriving DecidableEq, Repr

/-- Body of the `for tag in tags:` loop of `create_task`
(`src/phable/cli.py` lines 258-280): when the tag expression matches
`PARENT (SUBPROJECT)`, resolve the stripped parent title with no parent
filter, then the stripped subproject title scoped to the parent's phid; a
failed sub-resolution is a `ctx.fail` (note the source formats the falsy
`parent_project` value — Python `None` — into the parent-failure message).
When the expression does not match, resolve the whole expression as a flat
project title. -/
def resolveOneTag (c : CreateClient) (tag : String) : List LookupCall × Except String String :=
  match tagMatch tag with
  | some (parentRaw, subRaw) =>
    let parentTitle := pyStrip parentRaw
    match c.findProjectByTitle parentTitle none with
    | some parentPhid =>
      let projectTitle := pyStrip subRaw
      match c.findProjectByTitle projectTitle (some parentPhid) with
      | some phid =>
        ([LookupCall.findProject parentTitle none,
          LookupCall.findProject projectTitle (some parentPhid)], Except.ok phid)
      | none =>
        ([LookupCall.findProject parentTitle none,
          LookupCall.findProject projectTitle (some parentPhid)],
         Except.error ("Project " ++ projectTitle ++ " not found"))
    | none =>
      ([LookupCall.findProject parentTitle none],
       Except.error ("Project " ++ pyNoneStr ++ " not found"))
  | none =>
    match c.findProjectByTitle tag none with
    | some phid => ([LookupCall.findProject tag none], Except.ok phid)
    | none =>
      ([LookupCall.findProject tag none], Except.error ("Project " ++ tag ++ " not found"))

/-- The whole `for tag in tags:` loop: tag expressions are resolved strictly
in input order, accumulating one phid per tag; the first `ctx.fail` aborts
the command. -/
def resolveTags (c : CreateClient) : List String → List LookupCall × Except String (List String)
  | [] => ([], Except.ok [])
  | tag :: rest =>
    match resolveOneTag c tag with
    | (calls, Except.error e) => (calls, Except.error e)
    | (calls, Except.ok phid) =>
      match resolveTags c rest with
      | (calls2, Except.error e) => (calls ++ calls2, Except.error e)
      | (calls2, Except.ok phids) => (calls ++ calls2, Except.ok (phid :: phids))

/-- The owner block of `create_task` (lines 286-290): look the username up,
`ctx.fail` when it cannot be resolved, otherwise contribute the `owner`
field. -/
def ownerParams (c : CreateClient) (owner : Option String) :
    List LookupCall × Except String (List (String × FieldValue)) :=
  match owner with
  | none => ([], Except.ok [])
  | some o =>
    match c.findUserByUsername o with
    | some phid => ([LookupCall.findUser o], Except.ok [("owner", FieldValue.str phid)])
    | none => ([LookupCall.findUser o], Except.error ("User " ++ o ++ " not found"))

/-- The parent block of `create_task` (lines 292-294): `show_task` on the
parent id and contribute `parents.set`. -/
def parentParams (c : CreateClient) (parentId : Option Nat) : List (String × FieldValue) :=
  match parentId with
  | none => []
  | some pid => [("parents.set", FieldValue.list [c.showTaskPhid pid])]

/-- The `for username in cc:` loop of `create_task` (lines 296-301).  Note
the source's failure message formats the `owner` variable, not the
unresolved `username`. -/
def resolveCc (c : CreateClient) (owner : Option String) :
    List String → List LookupCall × Except String (List String)
  | [] => ([], Except.ok [])
  | u :: rest =>
    match c.findUserByUsername u with
    | none =>
      ([LookupCall.findUser u], Except.error ("User " ++ pyOptStr owner ++ " not found"))
    | some phid =>
      match resolveCc c owner rest with
      | (calls, Except.error e) => (LookupCall.findUser u :: calls, Except.error e)
      | (calls, Except.ok phids) => (LookupCall.findUser u :: calls, Except.ok (phid :: phids))

/-- The parameter-building core of `create_task` (`src/phable/cli.py` lines
251-306, identical in `src/phable_cli/cli.py` lines 192-247), after the
description text has been obtained.  Returns the ordered resolution-call
trace and either the `ctx.fail` message (in which case `create_or_edit_task`
is never reached: no transaction is submitted) or the ordered field map
passed to the single `create_or_edit_task` submission.  Insertion order of
the Python dict is the list order: `title`, `description`, `priority`,
`projects.add`, then conditionally `owner`, `parents.set`,
`subscribers.set`. -/
def create_task (c : CreateClient) (defaultProjectPhid : String)
    (title description priority : String) (parentId : Option Nat)
    (tags : List String) (cc : List String) (owner : Option String) :
    List LookupCall × Except String (List (String × FieldValue)) :=
  match resolveTags c tags with
  | (calls, Except.error e) => (calls, Except.error e)
  | (calls, Except.ok tagPhids) =>
    match ownerParams c owner with
    | (calls2, Except.error e) => (calls ++ calls2, Except.error e)
    | (calls2, Except.ok ownerPs) =>
      match resolveCc c owner cc with
      | (calls3, Except.error e) => (calls ++ calls2 ++ calls3, Except.error e)
      | (calls3, Except.ok ccPhids) =>
        (calls ++ calls2 ++ calls3,
         Except.ok
           ([("title", FieldValue.str title), ("description", FieldValue.str description),
             ("priority", FieldValue.str priority),
             ("projects.add",
              FieldValue.list (if tagPhids ≠ [] then tagPhids else [defaultProjectPhid]))]
            ++ ownerPs ++ parentParams c parentId
            ++ (if ccPhids ≠ [] then [("subscribers.set", FieldValue.list ccPhids)] else [])))

/-- The submissions a `create_task` run performs: exactly one
`create_or_edit_task` call with the built field map on success, none when the
command failed. -/
def createSubmits (r : Except String (List (String × FieldValue))) :
    List (List (String × FieldValue)) :=
  match r with
  | Except.error _ => []
  | Except.ok params => [params]

/-! ### The tag_task command (`src/phable/cli/tag.py` lines 20-24) -/

/-- A transaction submitted by the `tag` command. -/
inductive TagEvent where
  | assignTag (taskId : Nat) (tagPhid : String)
deriving DecidableEq, Repr

/-- The observable outcome of a `tag_task` run: the submitted transactions,
the lines printed to stderr, and the `ctx.fail` message when the command
aborted fatally (`none` = the process exits successfully). -/
structure TagOutcome where
  events : List TagEvent
  stderr : List String
  fatal : Option String
deriving DecidableEq, Repr

/-- An ASCII single quote, as it appears in the Python f-string. -/
def sq : String := "\x27"

/-- Command `tag_task` from `src/phable/cli/tag.py`: `if tag := client.show_tag(tag_name=tag):`
rebinds `tag` to the lookup result, so in the not-found branch the f-string
`f"Tag \x27{tag}\x27 not found"` formats `None`; the message goes to stderr via
`click.echo(..., err=True)` and the command then returns normally (no
`ctx.fail`). -/
def tag_task (showTag : String → Option String) (taskIds : List Nat) (tag : String) :
    TagOutcome :=
  match showTag tag with
  | some phid =>
    { events := taskIds.map (fun t => TagEvent.assignTag t phid)
      stderr := []
      fatal := none }
  | none =>
    { events := []
      stderr := ["Tag " ++ sq ++ pyNoneStr ++ sq ++ " not found"]
      fatal := none }

/-! ### The Transaction Encoder (spec §4.3) -/

/-- Modelled from the spec: the encoded form of one field value inside a
transaction slot — a scalar value, or the indexed sub-list the remote API
expects for list-valued fields.  The encoder itself lives in
`phabricator.py` (`create_or_edit_task`), which is not under `src/`. -/
inductive SlotValue where
  | single (v : String)
  | indexed (entries : List (Nat × String))
deriving DecidableEq, Repr

/-- Modelled from the spec: one transaction slot, carrying a `type` (the
canonical field name) and a `value` (spec §4.3). -/
structure TxSlot where
  ty : String
  value : SlotValue
deriving DecidableEq, Repr

/-- Modelled from the spec: how one entry of the ordered field map becomes a
transaction slot — the field name becomes the slot's `type`; a scalar value
is carried directly; a list value becomes indexed value entries in the
list's original order (spec §4.3). -/
def encodeField : String × FieldValue → TxSlot
  | (name, FieldValue.str v) => { ty := name, value := SlotValue.single v }
  | (name, FieldValue.list l) => { ty := name, value := SlotValue.indexed l.enum }

/-- Modelled from the spec: `encode(field_map) -> wire_params` of §4.3 — one
slot per entry of the ordered field map, in the mapping's insertion order,
which becomes the transaction application order. -/
def encode (fieldMap : List (String × FieldValue)) : List TxSlot :=
  fieldMap.map encodeField

/-- Is this field-map entry scalar-valued? -/
def isScalarEntry : String × FieldValue → Bool
  | (_, FieldValue.str _) => true
  | (_, FieldValue.list _) => false

/-! ### The Task class (`src/phable/cli.py` lines 89-96, `src/phable_cli/cli.py` lines 28-35) -/

/-- Python `value.lstrip("T")`: remove every leading `T` character. -/
def pyLstripT (s : String) : String :=
  (s.toList.dropWhile (fun c => c = 'T')).asString

/-- Python `int(...)` on a plain decimal digit string: the standard
digit-fold (the same algorithm as core's `String.toNat?`, stated over the
character list so that it evaluates by plain reduction); `none` models the
`ValueError` Python raises on a non-numeric remainder. -/
def parseNat? (cs : List Char) : Option Nat :=
  if cs ≠ [] ∧ cs.all Char.isDigit then
    some (cs.foldl (fun n c => n * 10 + (c.toNat - Char.toNat '0')) 0)
  else
    none

/-- Method `Task.from_str`: `int(value.lstrip("T"))`. -/
def Task.from_str (value : String) : Option Nat :=
  parseNat? (pyLstripT value).data

/-- Method `Task.from_int`: the f-string with a leading T before the decimal digits. -/
def Task.from_int (value : Nat) : String :=
  "T" ++ Nat.repr value

/-! ### The read_config function (`src/phable_cli/config.py` lines 31-48) -/

/-- The configuration sections as `read_config` returns them:
`{section: dict(config.items(section)) for section in config.sections()}`. -/
def ConfigDict : Type := List (String × List (String × String))

/-- The state of the on-disk configuration file, as seen by `read_config`:
whether `config_filepath.exists()`, and what `ConfigParser.read` does on it —
`Except.error` models the exception path caught by the `try`/`except` block,
`Except.ok` the successfully parsed sections. -/
structure ConfigFile where
  fileExists : Bool
  parsed : Except String (List (String × List (String × String)))

/-- Function `read_config` from `src/phable_cli/config.py`: a missing file yields an
empty mapping; a parse exception is caught, recorded as a warning
(`_warnings.append(f"Configuration file {path} is invalid. Skipping parsing.")`)
and degrades to an empty mapping; otherwise the parsed sections are
returned.  The function itself never raises, which is why its Lean type has
no `Except` layer: the pair is (returned mapping, warnings appended). -/
def read_config (path : String) (f : ConfigFile) :
    List (String × List (String × String)) × List String :=
  if f.fileExists then
    match f.parsed with
    | Except.error _ =>
      ([], ["Configuration file " ++ path ++ " is invalid. Skipping parsing."])
    | Except.ok sections => (sections, [])
  else
    ([], [])

/-! ## Theorems -/

/-- Helper: every list of field-map entries splits into its scalar and its
list entries. -/
theorem length_eq_scalar_add_list (fm : List (String × FieldValue)) :
    fm.length = (fm.filter isScalarEntry).length
      + (fm.filter (fun e => !isScalarEntry e)).length := by
  induction fm with
  | nil => rfl
  | cons e t ih =>
    cases h : isScalarEntry e <;> simp [List.filter_cons, h, ih] <;> omega

/-- Claim C10: `read_config` is total at its public interface — a missing
configuration file yields an empty mapping, a parse exception is caught,
recorded as a warning and degraded to an empty mapping (never propagated to
the caller), and a healthy file yields its parsed sections. -/
theorem read_config_degrades (path : String) (f : ConfigFile) :
    (f.fileExists = false → read_config path f = ([], [])) ∧
    (∀ e, f.fileExists = true → f.parsed = Except.error e →
      read_config path f
        = ([], ["Configuration file " ++ path ++ " is invalid. Skipping parsing."])) ∧
    (∀ sections, f.fileExists = true → f.parsed = Except.ok sections →
      read_config path f = (sections, [])) := by
  refine ⟨fun h => ?_, fun e h1 h2 => ?_, fun sections h1 h2 => ?_⟩ <;>
    simp [read_config, *]

/-- Witness for C10: a present but unparsable configuration file degrades to
an empty mapping plus one warning. -/
theorem read_config_degrades_witness :
    read_config "config.ini" { fileExists := true, parsed := Except.error "parse error" }
      = ([], ["Configuration file config.ini is invalid. Skipping parsing."]) :=
  (read_config_degrades "config.ini"
    { fileExists := true, parsed := Except.error "parse error" }).2.1 "parse error" rfl rfl

/-- Claim C7: for a field map with K scalar and M list entries the encoder
produces exactly K+M transaction slots; each slot carries its field name as
the `type`, in the insertion order of the mapping; the slot of a list-valued
entry of length n carries exactly n indexed value entries preserving the
list's original order. -/
theorem encode_shape (fieldMap : List (String × FieldValue)) (i : Nat)
    (name : String) (l : List String)
    (h : fieldMap[i]? = some (name, FieldValue.list l)) :
    (encode fieldMap).length
        = (fieldMap.filter isScalarEntry).length
          + (fieldMap.filter (fun e => !isScalarEntry e)).length
    ∧ (encode fieldMap).map TxSlot.ty = fieldMap.map Prod.fst
    ∧ (encode fieldMap)[i]? = some { ty := name, value := SlotValue.indexed l.enum }
    ∧ (l.enum).length = l.length
    ∧ (l.enum).map Prod.snd = l
    ∧ (l.enum).map Prod.fst = List.range l.length := by
  refine ⟨?_, ?_, ?_, ?_, ?_, ?_⟩
  · rw [encode, List.length_map]
    exact length_eq_scalar_add_list fieldMap
  · rw [encode, List.map_map]
    apply List.map_congr_left
    intro e _
    cases e with
    | mk n v => cases v <;> rfl
  · rw [encode, List.getElem?_map, h]
    rfl
  · rw [List.enum_eq_enumFrom, List.enumFrom_length]
  · rw [List.enum_eq_enumFrom, List.enumFrom_map_snd]
  · rw [List.enum_eq_enumFrom, List.enumFrom_map_fst, List.range_eq_range']

/-- Witness for C7: a two-entry field map with a scalar `title` and the
list-valued `projects.add`. -/
theorem encode_shape_witness :
    (encode [("title", FieldValue.str "x"), ("projects.add", FieldValue.list ["a", "b"])]).length
        = 1 + 1
    ∧ (encode [("title", FieldValue.str "x"),
        ("projects.add", FieldValue.list ["a", "b"])]).map TxSlot.ty
        = ["title", "projects.add"]
    ∧ (encode [("title", FieldValue.str "x"), ("projects.add", FieldValue.list ["a", "b"])])[1]?
        = some { ty := "projects.add", value := SlotValue.indexed [(0, "a"), (1, "b")] } := by
  have h := encode_shape
    [("title", FieldValue.str "x"), ("projects.add", FieldValue.list ["a", "b"])]
    1 "projects.add" ["a", "b"] rfl
  exact ⟨h.1, h.2.1, h.2.2.1⟩

/-- Helper: with a client whose transport never fails, no per-task move body
ends in an error. -/
theorem movePerTask_okClient_err (column phid : String) (t : Nat) :
    (movePerTask okClient column phid t).2 = none := by
  unfold movePerTask seqCall okClient
  by_cases h1 : pyLower column = "in progress" ∨ pyLower column = "needs review" <;>
    by_cases h2 : pyLower column = "done" <;> simp [h1, h2]

/-- The board used by the C2 batch-ordering run: a "Backlog" and a "Done"
column. -/
def c2Board : List Column :=
  [{ name := "Backlog", phid := "PHID-COL-BACKLOG", proxyPhid := none, hidden := false },
   { name := "Done", phid := "PHID-COL-DONE", proxyPhid := none, hidden := false }]

/-- The resolution environment of the C2 run. -/
def c2Env : MoveEnv := { projectColumns := [], boardColumns := fun _ => c2Board }

/-- Claim C2: moving tasks `[t1, t2]` to the "Done" column submits column
transaction for t1, resolve for t1, column transaction for t2, resolve for
t2, in that exact total order; moving them to "Backlog" submits no status
transaction; and the per-task loop processes the task list strictly
sequentially in input order (its trace is the in-order concatenation of the
per-task traces). -/
theorem move_done_batch_order (t1 t2 : Nat) :
    move_task c2Env okClient false "PHID-PROJ" "Done" [t1, t2]
      = ([MoveEvent.moveToColumn t1 "PHID-COL-DONE", MoveEvent.markResolved t1,
          MoveEvent.moveToColumn t2 "PHID-COL-DONE", MoveEvent.markResolved t2], none)
    ∧ ((move_task c2Env okClient false "PHID-PROJ" "Backlog" [t1, t2]).1.all
        (fun e => !e.isStatusTx)) = true
    ∧ ∀ (column phid : String) (ts : List Nat),
        (moveLoopWith (movePerTask okClient column phid) ts).1
          = ts.flatMap (fun t => (movePerTask okClient column phid t).1) := by
  refine ⟨rfl, rfl, fun column phid ts => ?_⟩
  induction ts with
  | nil => rfl
  | cons t ts ih =>
    have h2 := movePerTask_okClient_err column phid t
    cases hp : movePerTask okClient column phid t with
    | mk evs err =>
      rw [hp] at h2
      simp only at h2
      subst h2
      simp [moveLoopWith, hp, ih]

/-- The base-project columns of the C4 witness run: the only column with a
proxy is hidden, so milestone discovery fails. -/
def c4ProjectColumns : List Column :=
  [{ name := "Sprint 1", phid := "PHID-COL-M", proxyPhid := some "PHID-MILESTONE", hidden := true },
   { name := "Open", phid := "PHID-COL-O", proxyPhid := none, hidden := false }]

/-- The resolution environment of the C4 witness run. -/
def c4Env : MoveEnv := { projectColumns := c4ProjectColumns, boardColumns := fun _ => [] }

/-- Claim C4: when the board-or-milestone resolution or the column
resolution of a move batch fails, the whole batch halts before any per-task
transaction: the trace is empty for every task in the input list, and the
run surfaces exactly one user-facing fatal error; both generations of the
command behave identically. -/
theorem move_resolution_failure_halts (env : MoveEnv) (client : MoveClient)
    (milestone : Bool) (projectPhid column : String) (taskIds : List Nat)
    (h : get_main_project_or_milestone env.projectColumns milestone projectPhid = none
         ∨ ∃ boardPhid,
             get_main_project_or_milestone env.projectColumns milestone projectPhid
               = some boardPhid
             ∧ find_column_in_project (env.boardColumns boardPhid) column = none) :
    (move_task env client milestone projectPhid column taskIds).1 = []
    ∧ ((move_task env client milestone projectPhid column taskIds).2).isSome = true
    ∧ move_task_legacy env client milestone projectPhid column taskIds
        = move_task env client milestone projectPhid column taskIds := by
  rcases h with h | ⟨boardPhid, h1, h2⟩
  · simp [move_task, move_task_legacy, h]
  · simp [move_task, move_task_legacy, h1, h2]

/-- Witness for C4: asking for the milestone of a project whose only proxy
column is hidden halts a two-task batch with no transaction. -/
theorem move_resolution_failure_halts_witness :
    (move_task c4Env okClient true "PHID-PROJ" "Done" [1, 2]).1 = []
    ∧ ((move_task c4Env okClient true "PHID-PROJ" "Done" [1, 2]).2).isSome = true
    ∧ move_task_legacy c4Env okClient true "PHID-PROJ" "Done" [1, 2]
        = move_task c4Env okClient true "PHID-PROJ" "Done" [1, 2] :=
  move_resolution_failure_halts c4Env okClient true "PHID-PROJ" "Done" [1, 2] (Or.inl rfl)

/-- Claim C5: if every task before some task t in the batch moves cleanly
and a per-task call for t raises, the loop stops with exactly the traces of
the earlier tasks (kept — no rollback) plus t's partial trace, the error of
t's failing call (no retry), and nothing at all for the tasks after t. -/
theorem move_per_task_failure_fail_fast (client : MoveClient) (column phid : String)
    (pre post : List Nat) (t : Nat) (evs : List MoveEvent) (err : String)
    (hpre : ∀ u ∈ pre, (movePerTask client column phid u).2 = none)
    (ht : movePerTask client column phid t = (evs, some err)) :
    moveLoopWith (movePerTask client column phid) (pre ++ t :: post)
      = (pre.flatMap (fun u => (movePerTask client column phid u).1) ++ evs, some err) := by
  induction pre with
  | nil => simp [moveLoopWith, ht]
  | cons u pre ih =>
    have hu : (movePerTask client column phid u).2 = none := hpre u (by simp)
    have hrest : ∀ v ∈ pre, (movePerTask client column phid v).2 = none :=
      fun v hv => hpre v (by simp [hv])
    cases hp : movePerTask client column phid u with
    | mk evsU errU =>
      rw [hp] at hu
      simp only at hu
      subst hu
      simp [moveLoopWith, hp, ih hrest, List.flatMap_cons, List.append_assoc]

/-- The transport of the C5 witness: moving task 2 onto a column raises, all
other calls succeed. -/
def c5Client : MoveClient :=
  { moveTaskToColumn := fun t _ => if t = 2 then some "transport error" else none
    markTaskAsInProgress := fun _ => none
    markTaskAsResolved := fun _ => none }

/-- Witness for C5: in the batch `[1, 2, 3]` moved to "Done", task 1 is
fully processed, task 2's failing column move ends the run, task 3 is never
touched. -/
theorem move_per_task_failure_fail_fast_witness :
    moveLoopWith (movePerTask c5Client "Done" "P") [1, 2, 3]
      = ([MoveEvent.moveToColumn 1 "P", MoveEvent.markResolved 1,
          MoveEvent.moveToColumn 2 "P"], some "transport error") :=
  move_per_task_failure_fail_fast c5Client "Done" "P" [1] [3] 2
    [MoveEvent.moveToColumn 2 "P"] "transport error"
    (by intro u hu; simp at hu; subst hu; rfl) rfl

/-- Claim C3: the tag expression is parsed against `PARENT (SUBPROJECT)`;
on a match the stripped parent title is resolved first with no parent
filter, then the stripped subproject title scoped to the parent's resolved
identifier; either failed sub-resolution makes the enclosing command fail
fatally, and a failed tag resolution means no transaction is ever submitted
(`createSubmits` is empty); a non-matching expression is resolved as one
flat project title. -/
theorem resolve_tag_spec (c : CreateClient) (tag p q : String)
    (defaultPhid title desc prio : String) (parentId : Option Nat)
    (cc : List String) (owner : Option String) :
    (tagMatch tag = some (p, q) → c.findProjectByTitle (pyStrip p) none = none →
      resolveOneTag c tag
        = ([LookupCall.findProject (pyStrip p) none],
           Except.error ("Project " ++ pyNoneStr ++ " not found"))) ∧
    (∀ pid, tagMatch tag = some (p, q) →
      c.findProjectByTitle (pyStrip p) none = some pid →
      (resolveOneTag c tag).1
          = [LookupCall.findProject (pyStrip p) none,
             LookupCall.findProject (pyStrip q) (some pid)]
        ∧ (c.findProjectByTitle (pyStrip q) (some pid) = none →
            (resolveOneTag c tag).2
              = Except.error ("Project " ++ pyStrip q ++ " not found"))) ∧
    (tagMatch tag = none →
      (resolveOneTag c tag).1 = [LookupCall.findProject tag none]
      ∧ (c.findProjectByTitle tag none = none →
          (resolveOneTag c tag).2 = Except.error ("Project " ++ tag ++ " not found"))) ∧
    (∀ tags calls e, resolveTags c tags = (calls, Except.error e) →
      createSubmits
        (create_task c defaultPhid title desc prio parentId tags cc owner).2 = []) := by
  refine ⟨fun h1 h2 => ?_, fun pid h1 h2 => ?_, fun h1 => ?_, fun tags calls e h => ?_⟩
  · simp [resolveOneTag, h1, h2]
  · constructor
    · cases h3 : c.findProjectByTitle (pyStrip q) (some pid) <;>
        simp [resolveOneTag, h1, h2, h3]
    · intro h3
      simp [resolveOneTag, h1, h2, h3]
  · constructor
    · cases h2 : c.findProjectByTitle tag none <;> simp [resolveOneTag, h1, h2]
    · intro h2
      simp [resolveOneTag, h1, h2]
  · simp [create_task, h, createSubmits]

/-- The client of the C3 witness: no project title resolves. -/
def c3Client : CreateClient :=
  { findProjectByTitle := fun _ _ => none
    findUserByUsername := fun _ => none
    showTaskPhid := fun _ => "" }

/-- The sub-project tag expression used as the spec's worked example. -/
def dataTag : String := "Data-Platform-SRE (2025.03.22 - 2025.04.11)"

/-- Witness for C3: on the spec's example expression the parent title
"Data-Platform-SRE" is resolved first with no parent filter; since it does
not resolve, the command fails fatally and submits nothing. -/
theorem resolve_tag_spec_witness :
    resolveOneTag c3Client dataTag
      = ([LookupCall.findProject "Data-Platform-SRE" none],
         Except.error "Project None not found")
    ∧ createSubmits
        (create_task c3Client "PHID-DEF" "a title" "a description" "normal" none
          [dataTag] [] none).2 = [] := by
  have h := resolve_tag_spec c3Client dataTag "Data-Platform-SRE" "2025.03.22 - 2025.04.11"
      "PHID-DEF" "a title" "a description" "normal" none [] none
  exact ⟨h.1 rfl rfl,
    h.2.2.2 [dataTag] [LookupCall.findProject "Data-Platform-SRE" none]
      "Project None not found" rfl⟩

/-- The client of the C6 evidence: nothing resolves. -/
def c6Client : CreateClient :=
  { findProjectByTitle := fun _ _ => none
    findUserByUsername := fun _ => none
    showTaskPhid := fun _ => "" }

/-- Claim C6 (evidence against): not-found reporting does not follow the
"always fatal, reported with the offending supplied name" policy.  The
`tag` command prints `Tag` `None` `not found` — the walrus-rebound lookup
result, not the supplied name "Foo" — to stderr and finishes without a
fatal error; `create_task`'s parent-project branch reports
`Project None not found` instead of the supplied parent title; and its
`--cc` loop formats the owner value instead of the unresolved username. -/
theorem resolution_not_found_misreported :
    tag_task (fun _ => none) [1] "Foo"
      = { events := [], stderr := ["Tag " ++ sq ++ pyNoneStr ++ sq ++ " not found"],
          fatal := none }
    ∧ "Tag " ++ sq ++ pyNoneStr ++ sq ++ " not found"
        ≠ "Tag " ++ sq ++ "Foo" ++ sq ++ " not found"
    ∧ (resolveOneTag c6Client "Foo (Bar)").2
        = Except.error ("Project " ++ pyNoneStr ++ " not found")
    ∧ ("Project " ++ pyNoneStr ++ " not found") ≠ "Project Foo not found"
    ∧ (resolveCc c6Client (some "alice") ["bob"]).2
        = Except.error "User alice not found" := by
  refine ⟨rfl, ?_, rfl, ?_, rfl⟩ <;> decide

/-- Look a field up in a built field map (first entry with that name). -/
def lookupField (params : List (String × FieldValue)) (name : String) : Option FieldValue :=
  (params.find? (fun e => e.1 == name)).map (fun e => e.2)

/-- The list carried by the `projects.add` field of a built field map
(empty when the field is absent or scalar). -/
def projectsAddList (params : List (String × FieldValue)) : List String :=
  match lookupField params "projects.add" with
  | some (FieldValue.list l) => l
  | _ => []

/-- Helper: a successful tag-resolution loop returns one phid per input
tag. -/
theorem resolveTags_ok_length (c : CreateClient) (tags : List String)
    (calls : List LookupCall) (phids : List String)
    (h : resolveTags c tags = (calls, Except.ok phids)) :
    phids.length = tags.length := by
  induction tags generalizing calls phids with
  | nil =>
    simp only [resolveTags, Prod.mk.injEq] at h
    obtain ⟨-, h2⟩ := h
    cases h2
    rfl
  | cons tag rest ih =>
    rw [resolveTags] at h
    cases h1 : resolveOneTag c tag with
    | mk calls1 r1 =>
      rw [h1] at h
      cases r1 with
      | error e => simp at h
      | ok phid =>
        cases h2 : resolveTags c rest with
        | mk calls2 r2 =>
          rw [h2] at h
          cases r2 with
          | error e => simp at h
          | ok phids2 =>
            simp only [Prod.mk.injEq] at h
            obtain ⟨-, h4⟩ := h
            cases h4
            simp [ih calls2 phids2 h2]

/-- Helper: a successful tag-resolution loop resolves the tags positionally
in input order — the i-th returned phid is exactly what `resolveOneTag`
yields on the i-th input tag. -/
theorem resolveTags_ok_getElem? (c : CreateClient) (tags : List String)
    (calls : List LookupCall) (phids : List String)
    (h : resolveTags c tags = (calls, Except.ok phids)) :
    ∀ (i : Nat) (tag' : String), tags[i]? = some tag' →
      phids[i]? = ((resolveOneTag c tag').2).toOption := by
  induction tags generalizing calls phids with
  | nil => intro i tag' hi; simp at hi
  | cons tag rest ih =>
    rw [resolveTags] at h
    cases h1 : resolveOneTag c tag with
    | mk calls1 r1 =>
      rw [h1] at h
      cases r1 with
      | error e => simp at h
      | ok phid =>
        cases h2 : resolveTags c rest with
        | mk calls2 r2 =>
          rw [h2] at h
          cases r2 with
          | error e => simp at h
          | ok phids2 =>
            simp only [Prod.mk.injEq] at h
            obtain ⟨-, h4⟩ := h
            cases h4
            intro i tag' hi
            cases i with
            | zero =>
              simp at hi
              subst hi
              simp [h1, Except.toOption]
            | succ j =>
              simp at hi
              simpa using ih calls2 phids2 h2 j tag' (by simpa using hi)

/-- Claim C8: a successfully built `create_task` field map always carries a
non-empty `projects.add` list — the single configured default project phid
when no `--tags` value was given, and exactly the resolved tag identifiers,
positionally in input order, when tags were given and all of them
resolved. -/
theorem create_projects_add (c : CreateClient) (defaultPhid title desc prio : String)
    (parentId : Option Nat) (tags cc : List String) (owner : Option String)
    (calls : List LookupCall) (params : List (String × FieldValue))
    (h : create_task c defaultPhid title desc prio parentId tags cc owner
          = (calls, Except.ok params)) :
    lookupField params "projects.add" = some (FieldValue.list (projectsAddList params))
    ∧ projectsAddList params ≠ []
    ∧ (tags = [] → projectsAddList params = [defaultPhid])
    ∧ (∀ calls' phids, resolveTags c tags = (calls', Except.ok phids) → tags ≠ [] →
        projectsAddList params = phids)
    ∧ (∀ calls' phids (i : Nat) (tag' : String),
        resolveTags c tags = (calls', Except.ok phids) →
        tags[i]? = some tag' → phids[i]? = ((resolveOneTag c tag').2).toOption) := by
  rw [create_task] at h
  cases h1 : resolveTags c tags with
  | mk calls1 r1 =>
    rw [h1] at h
    cases r1 with
    | error e => simp at h
    | ok tagPhids =>
      cases h2 : ownerParams c owner with
      | mk calls2 r2 =>
        rw [h2] at h
        cases r2 with
        | error e => simp at h
        | ok ownerPs =>
          cases h3 : resolveCc c owner cc with
          | mk calls3 r3 =>
            rw [h3] at h
            cases r3 with
            | error e => simp at h
            | ok ccPhids =>
              simp only [Prod.mk.injEq] at h
              obtain ⟨-, h5⟩ := h
              cases h5
              refine ⟨rfl, ?_, ?_, ?_, ?_⟩
              · by_cases hp : tagPhids = [] <;>
                  simp [projectsAddList, lookupField, List.find?, hp]
              · intro htags
                subst htags
                simp only [resolveTags, Prod.mk.injEq] at h1
                obtain ⟨-, h6⟩ := h1
                cases h6
                simp [projectsAddList, lookupField, List.find?]
              · intro calls' phids h4 htags
                simp only [Prod.mk.injEq, Except.ok.injEq] at h4
                obtain ⟨-, h6⟩ := h4
                subst h6
                have hlen := resolveTags_ok_length c tags calls1 tagPhids h1
                have hne : tagPhids ≠ [] := by
                  intro hnil
                  apply htags
                  rw [hnil] at hlen
                  exact List.length_eq_zero.mp hlen.symm
                simp [projectsAddList, lookupField, List.find?, hne]
              · intro calls' phids i tag' h4 hi
                exact resolveTags_ok_getElem? c tags calls' phids (h1.trans h4) i tag' hi

/-- The client of the C8 witness: every flat project title `t` resolves to
the phid `PHID-t`. -/
def c8Client : CreateClient :=
  { findProjectByTitle := fun t _ => some ("PHID-" ++ t)
    findUserByUsername := fun _ => none
    showTaskPhid := fun _ => "" }

/-- The field map built by the C8 witness run. -/
def c8Params : List (String × FieldValue) :=
  [("title", FieldValue.str "t"), ("description", FieldValue.str "d"),
   ("priority", FieldValue.str "normal"),
   ("projects.add", FieldValue.list ["PHID-alpha", "PHID-beta"])]

/-- Witness for C8: with `--tags alpha --tags beta` both resolving, the
built field map carries `projects.add = [PHID-alpha, PHID-beta]`, in input
order and non-empty. -/
theorem create_projects_add_witness :
    projectsAddList c8Params = ["PHID-alpha", "PHID-beta"]
    ∧ projectsAddList c8Params ≠ []
    ∧ lookupField c8Params "projects.add"
        = some (FieldValue.list (projectsAddList c8Params)) := by
  have h := create_projects_add c8Client "PHID-DEF" "t" "d" "normal" none
      ["alpha", "beta"] [] none
      [LookupCall.findProject "alpha" none, LookupCall.findProject "beta" none]
      c8Params rfl
  exact ⟨h.2.2.2.1
      [LookupCall.findProject "alpha" none, LookupCall.findProject "beta" none]
      ["PHID-alpha", "PHID-beta"] rfl (by decide),
    h.2.1, h.1⟩

/-- Helper: a successful column resolution returns a column whose display
name is case-insensitively equal to the requested name. -/
theorem find_column_name (columns : List Column) (columnName : String) (col : Column)
    (h : find_column_in_project columns columnName = some col) :
    pyLower col.name = pyLower columnName := by
  rw [find_column_in_project] at h
  exact eq_of_beq
    (@List.find?_some Column (fun c => pyLower c.name == pyLower columnName) col columns h)

/-- The board of the C1 runs: a single visible "In Progress" column. -/
def c1Columns : List Column :=
  [{ name := "In Progress", phid := "PHID-COL-IP", proxyPhid := none, hidden := false }]

/-- The resolution environment of the C1 runs. -/
def c1Env : MoveEnv := { projectColumns := [], boardColumns := fun _ => c1Columns }

/-- Counterexample to C1 as stated: the legacy generation's `move_task`
(`src/phable_cli/cli.py` lines 316-319) is also a run of the move intent,
and moving task 1 to the resolved column whose display name is
case-insensitively "in progress" submits no status transaction at all —
the claimed "in-progress" follow-up does not happen there. -/
theorem move_status_rule_counterexample :
    find_column_in_project c1Columns "In Progress"
      = some { name := "In Progress", phid := "PHID-COL-IP", proxyPhid := none, hidden := false }
    ∧ pyLower "In Progress" = "in progress"
    ∧ move_task_legacy c1Env okClient false "PHID-PROJ" "In Progress" [1]
        = ([MoveEvent.moveToColumn 1 "PHID-COL-IP"], none)
    ∧ ((move_task_legacy c1Env okClient false "PHID-PROJ" "In Progress" [1]).1.all
        (fun e => !e.isStatusTx)) = true :=
  ⟨rfl, rfl, rfl, rfl⟩

/-- Claim C1 (amended): after a task's column transaction went through, the
current generation (`src/phable/cli/move.py`, `src/phable/cli.py`) submits
a follow-up status transaction exactly when the resolved column's display
name case-insensitively equals "done" (a resolve transition) or "in
progress" / "needs review" (an in-progress transition), and no status
transaction for any other name; the legacy generation
(`src/phable_cli/cli.py`) only has the "done" → resolve rule and never
submits an in-progress transition. -/
theorem move_status_rule (columns : List Column) (column : String) (col : Column)
    (client : MoveClient) (phid : String) (t : Nat)
    (hfind : find_column_in_project columns column = some col)
    (hmove : client.moveTaskToColumn t phid = none) :
    (MoveEvent.markResolved t ∈ (movePerTask client column phid t).1
        ↔ pyLower col.name = "done")
    ∧ (MoveEvent.markInProgress t ∈ (movePerTask client column phid t).1
        ↔ (pyLower col.name = "in progress" ∨ pyLower col.name = "needs review"))
    ∧ (MoveEvent.markResolved t ∈ (movePerTaskLegacy client column phid t).1
        ↔ pyLower col.name = "done")
    ∧ MoveEvent.markInProgress t ∉ (movePerTaskLegacy client column phid t).1
    ∧ (¬(pyLower col.name = "done" ∨ pyLower col.name = "in progress"
          ∨ pyLower col.name = "needs review") →
        ((movePerTask client column phid t).1.all (fun e => !e.isStatusTx)) = true
        ∧ ((movePerTaskLegacy client column phid t).1.all (fun e => !e.isStatusTx)) = true) := by
  have hname : pyLower col.name = pyLower column := find_column_name columns column col hfind
  rw [hname]
  by_cases h1 : pyLower column = "in progress" ∨ pyLower column = "needs review" <;>
    by_cases h2 : pyLower column = "done"
  · exact absurd (h2 ▸ h1) (by decide)
  · simp [movePerTask, movePerTaskLegacy, seqCall, hmove, h1, h2, MoveEvent.isStatusTx]
  · simp [movePerTask, movePerTaskLegacy, seqCall, hmove, h1, h2, MoveEvent.isStatusTx]
  · simp [movePerTask, movePerTaskLegacy, seqCall, hmove, h1, h2, MoveEvent.isStatusTx]

/-- Witness for the amended C1: on the "In Progress" column resolved from
the C1 board, the current generation submits the in-progress follow-up and
the legacy generation does not. -/
theorem move_status_rule_witness :
    MoveEvent.markInProgress 1 ∈ (movePerTask okClient "In Progress" "PHID-COL-IP" 1).1
    ∧ MoveEvent.markInProgress 1 ∉ (movePerTaskLegacy okClient "In Progress" "PHID-COL-IP" 1).1 := by
  have h := move_status_rule c1Columns "In Progress"
      { name := "In Progress", phid := "PHID-COL-IP", proxyPhid := none, hidden := false }
      okClient "PHID-COL-IP" 1 rfl rfl
  exact ⟨h.2.1.mpr (Or.inl rfl), h.2.2.2.1⟩

/-- The decimal digit characters of `n`, most significant first — the list
`Nat.repr n` is built from. -/
def natChars (n : Nat) : List Char :=
  if h : n < 10 then [Nat.digitChar n]
  else natChars (n / 10) ++ [Nat.digitChar (n % 10)]
decreasing_by exact Nat.div_lt_self (by omega) (by omega)

/-- Helper: with enough fuel, core's `Nat.toDigitsCore` produces exactly the
decimal digit characters followed by the accumulator. -/
theorem toDigitsCore_eq_natChars (f : Nat) :
    ∀ (n : Nat) (l : List Char), n < f →
      Nat.toDigitsCore 10 f n l = natChars n ++ l := by
  induction f with
  | zero => intro n l h; omega
  | succ f ih =>
    intro n l h
    rw [Nat.toDigitsCore]
    by_cases h0 : n / 10 = 0
    · have hn : n < 10 := (Nat.div_eq_zero_iff (by omega)).mp h0
      have hm : n % 10 = n := Nat.mod_eq_of_lt hn
      rw [natChars, dif_pos hn]
      simp [h0, hm]
    · have hn : ¬ n < 10 := fun hlt => h0 ((Nat.div_eq_zero_iff (by omega)).mpr hlt)
      have hlt : n / 10 < f := by omega
      simp only [if_neg h0]
      rw [ih (n / 10) (Nat.digitChar (n % 10) :: l) hlt]
      conv_rhs => rw [natChars]
      rw [dif_neg hn]
      simp [List.append_assoc]

/-- Helper: `Nat.repr` renders exactly the decimal digit characters. -/
theorem repr_data_eq_natChars (n : Nat) : (Nat.repr n).data = natChars n := by
  show (List.asString (Nat.toDigitsCore 10 (n + 1) n [])).data = natChars n
  rw [toDigitsCore_eq_natChars (n + 1) n [] (Nat.lt_succ_self n)]
  simp [List.asString]

/-- Helper: decimal digit characters are digits. -/
theorem digitChar_isDigit (d : Nat) (h : d < 10) : (Nat.digitChar d).isDigit = true := by
  interval_cases d <;> decide

/-- Helper: the numeric value of a decimal digit character. -/
theorem digitChar_val (d : Nat) (h : d < 10) :
    (Nat.digitChar d).toNat - 48 = d := by
  interval_cases d <;> decide

/-- Helper: `natChars` is never empty. -/
theorem natChars_ne_nil (n : Nat) : natChars n ≠ [] := by
  rw [natChars]
  split <;> simp

/-- Helper: every character of `natChars n` is a digit. -/
theorem natChars_all_isDigit (n : Nat) : (natChars n).all Char.isDigit = true := by
  induction n using Nat.strong_induction_on with
  | _ n ih =>
    rw [natChars]
    split
    · rename_i h
      simp [digitChar_isDigit n h]
    · rename_i h
      have h10 : 10 ≤ n := by omega
      simp only [List.all_append, List.all_cons, List.all_nil, Bool.and_true]
      rw [ih (n / 10) (Nat.div_lt_self (by omega) (by omega))]
      simp [digitChar_isDigit (n % 10) (Nat.mod_lt n (by omega))]

/-- Helper: folding the decimal digit fold over `natChars n` recovers `n`. -/
theorem foldl_natChars (n : Nat) :
    ∀ a : Nat,
      (natChars n).foldl (fun m c => m * 10 + (c.toNat - Char.toNat '0')) a
        = a * 10 ^ (natChars n).length + n := by
  induction n using Nat.strong_induction_on with
  | _ n ih =>
    intro a
    rw [natChars]
    split
    · rename_i h
      simp [List.foldl, digitChar_val n h]
    · rename_i h
      rw [List.foldl_append, ih (n / 10) (Nat.div_lt_self (by omega) (by omega)) a]
      simp only [List.foldl, show Char.toNat (Char.ofNat 48) = 48 from rfl,
        digitChar_val (n % 10) (Nat.mod_lt n (by omega)),
        List.length_append, List.length_cons, List.length_nil]
      rw [pow_succ, ← Nat.mul_assoc, Nat.add_mul, Nat.add_assoc]
      congr 1
      omega

/-- Helper: parsing the decimal digit characters of `n` recovers `n`. -/
theorem parseNat?_natChars (n : Nat) : parseNat? (natChars n) = some n := by
  rw [parseNat?, if_pos ⟨natChars_ne_nil n, natChars_all_isDigit n⟩, foldl_natChars n 0]
  simp

/-- Helper: `lstrip("T")` removes a single leading `T` wholesale. -/
theorem pyLstripT_T (s : String) : pyLstripT ("T" ++ s) = pyLstripT s := rfl

/-- Helper: stripping the leading `T` of `Task.from_int n` leaves exactly
the decimal digit characters of `n`. -/
theorem pyLstripT_from_int (n : Nat) : (pyLstripT (Task.from_int n)).data = natChars n := by
  have hdata : (Task.from_int n).data = 'T' :: natChars n := by
    show ("T" ++ Nat.repr n).data = 'T' :: natChars n
    rw [String.data_append, repr_data_eq_natChars]
    rfl
  cases hc : natChars n with
  | nil => exact absurd hc (natChars_ne_nil n)
  | cons c l =>
    have hdig : c.isDigit = true := by
      have hall := natChars_all_isDigit n
      rw [hc] at hall
      simp only [List.all_cons, Bool.and_eq_true] at hall
      exact hall.1
    have hcT : ¬ (c = 'T') := by
      intro he
      subst he
      exact absurd hdig (by decide)
    rw [hc] at hdata
    show ((Task.from_int n).toList.dropWhile (fun ch => ch = 'T')).asString.data = c :: l
    rw [String.toList, hdata]
    simp only [List.dropWhile, decide_eq_true_eq, if_pos, hcT]
    rfl

/-- Claim C9: `Task.from_str` is a left inverse of `Task.from_int` on every
natural number, and `Task.from_str` ignores any number of leading `T`
characters, so `"123"`, `"T123"` and `"TT123"` all parse to 123. -/
theorem task_from_str_from_int (n : Nat) (s : String) :
    Task.from_str (Task.from_int n) = some n
    ∧ Task.from_str ("T" ++ s) = Task.from_str s
    ∧ Task.from_str "123" = some 123
    ∧ Task.from_str "T123" = some 123
    ∧ Task.from_str "TT123" = some 123 := by
  refine ⟨?_, ?_, rfl, rfl, rfl⟩
  · rw [Task.from_str, pyLstripT_from_int, parseNat?_natChars]
  · rw [Task.from_str, Task.from_str, pyLstripT_T]

end Phable
